import Mathlib

/-!
Shallow embedding of the two scraper scripts of this repository
(`scripts/extract_product_hrefs.py` and `scripts/scrape_coas_from_excel.py`)
together with proofs about the claims of the specification.

Python strings are modelled as Lean `String`, operated on through their
character lists so that every definition evaluates by kernel reduction.
Only ASCII text is exercised, for which `Char.toLower` etc. agree with
Python's `str.lower`/`str.strip`.
-/

/-- Python whitespace characters stripped by `str.strip()` (ASCII range). -/
def isPyWs (c : Char) : Bool :=
  c = ' ' || c = '\t' || c = '\n' || c = '\r' || c = '\x0b' || c = '\x0c'

/-- Model of Python `str.strip()` (no arguments): remove whitespace at both ends. -/
def pyStrip (s : String) : String :=
  ⟨((s.data.dropWhile isPyWs).reverse.dropWhile isPyWs).reverse⟩

/-- Model of Python `str.strip(c)` for a single strip character `c`. -/
def pyStripChar (c : Char) (s : String) : String :=
  ⟨((s.data.dropWhile (· = c)).reverse.dropWhile (· = c)).reverse⟩

/-- Model of Python `str.lstrip(c)` for a single strip character `c`. -/
def pyLstripChar (c : Char) (s : String) : String :=
  ⟨s.data.dropWhile (· = c)⟩

/-- Model of Python `str.rstrip(c)` for a single strip character `c`. -/
def pyRstripChar (c : Char) (s : String) : String :=
  ⟨(s.data.reverse.dropWhile (· = c)).reverse⟩

/-- Model of Python `str.lower()` (ASCII). -/
def pyLower (s : String) : String :=
  ⟨s.data.map Char.toLower⟩

/-- Model of Python `str.startswith(p)`. -/
def pyStartswith (s p : String) : Bool :=
  p.data.isPrefixOf s.data

/-- Model of Python `str.endswith(p)`. -/
def pyEndswith (s p : String) : Bool :=
  p.data.isSuffixOf s.data

/-- Number of characters of `s` (Python `len`). -/
def strLen (s : String) : Nat := s.data.length

/-- Model of Python slicing `s[n:]`. -/
def strDrop (s : String) (n : Nat) : String := ⟨s.data.drop n⟩

/-- Model of Python slicing `s[:n]` for `n ≥ 0`. -/
def strTake (s : String) (n : Nat) : String := ⟨s.data.take n⟩

/-- Model of Python slicing `s[:-n]` (drop the last `n` characters). -/
def strDropRight (s : String) (n : Nat) : String :=
  ⟨s.data.take (s.data.length - n)⟩

/-- Does `pat` occur starting at character index `i` of the list `l`? -/
def prefixAt (l pat : List Char) (i : Nat) : Bool :=
  pat.isPrefixOf (l.drop i)

/-- Model of Python `pat in s` (substring containment). -/
def containsSub (s pat : String) : Bool :=
  (List.range (s.data.length + 1)).any (fun i => prefixAt s.data pat.data i)

/-- Index of the first occurrence of `pat` in `s`, if any. -/
def findSubIdx (s pat : String) : Option Nat :=
  (List.range (s.data.length + 1)).find? (fun i => prefixAt s.data pat.data i)

/-- Splitting helper: split a character list on a separator character. -/
def splitCharAux (c : Char) : List Char → List Char → List (List Char)
  | [], acc => [acc.reverse]
  | x :: xs, acc =>
    if x = c then acc.reverse :: splitCharAux c xs []
    else splitCharAux c xs (x :: acc)

/-- Model of Python `s.split(c)` for a one-character separator `c`. -/
def pySplitChar (s : String) (c : Char) : List String :=
  (splitCharAux c s.data []).map (fun l => ⟨l⟩)

/-- Model of Python `"sep".join`-style joining used via `str.join`. -/
def joinSep (sep : String) : List String → String
  | [] => ""
  | [x] => x
  | x :: xs => x ++ sep ++ joinSep sep xs

/-!
`parse_company_product_weight_from_url` (scrape_coas_from_excel.py lines 97-113).
-/

/-- Model of `url.split("/menu/", 1)[-1]`: the part after the first occurrence
of `"/menu/"`, or the whole string when `"/menu/"` does not occur. -/
def splitMenuTail (url : String) : String :=
  match findSubIdx url "/menu/" with
  | some i => strDrop url (i + 6)
  | none => url

/-- Full-string match of the regex `\d+` : nonempty and all digits. -/
def allDigits (l : List Char) : Bool :=
  l ≠ [] && l.all Char.isDigit

/-- Full-string match of the regex `\d+(?:\.\d+)?`. -/
def isNumericToken (s : String) : Bool :=
  match pySplitChar s '.' with
  | [d] => allDigits d.data
  | [d1, d2] => allDigits d1.data && allDigits d2.data
  | _ => false

/-- Full-string match of `\d+(?:\.\d+)?(?:g|mg|oz)` : a weight token.
A backtracking match exists exactly when the string decomposes as a numeric
token followed by one of the three unit suffixes. -/
def isWeightToken (s : String) : Bool :=
  ["g", "mg", "oz"].any (fun u =>
    pyEndswith s u && isNumericToken (strDropRight s u.data.length))

/-- Model of `re.search(r"(\d+(?:\.\d+)?(?:g|mg|oz))$", slug)` followed by
`m.group(1)`: the leftmost suffix of `slug` that matches the weight pattern,
or `""` when there is none.  (The slug is already stripped, so the
end-of-string anchor never sits before a trailing newline.) -/
def weightOf (slug : String) : String :=
  match (List.range (strLen slug)).find? (fun i => isWeightToken (strDrop slug i)) with
  | some i => strDrop slug i
  | none => ""

/-- Embedding of `parse_company_product_weight_from_url` (lines 97-113):
company is the first `/`-segment after `/menu/`, the slug is the second,
the weight is the trailing numeric+unit suffix of the slug, and the product
name is the slug with the company prefix and weight suffix stripped. -/
def parse_company_product_weight_from_url (product_url : String) :
    String × String × String :=
  let slug_part := splitMenuTail product_url
  let parts := pySplitChar slug_part '/'
  let company := pyStrip (parts.getD 0 "")
  let slug := pyStrip (parts.getD 1 "")
  let weight := weightOf slug
  let product_name := slug
  let product_name :=
    if company ≠ "" ∧ pyStartswith product_name company then
      pyLstripChar '-' (strDrop product_name (strLen company))
    else product_name
  let product_name :=
    if weight ≠ "" then pyRstripChar '-' (strDropRight product_name (strLen weight))
    else product_name
  (company, product_name, weight)

/-!
Extractor script `extract_product_hrefs.py`: `extract_hrefs_from_file`
(lines 36-47) and the counters of `main` (lines 57-82).
-/

/-- Index of the last `'/'` of `l`, if any. -/
def lastSlashIdx (l : List Char) : Option Nat :=
  ((List.range l.length).filter (fun i => l.getD i ' ' = '/')).getLast?

/-- Scheme-plus-host part of an absolute URL, e.g.
`originOf "https://h/p/q" = "https://h"`. -/
def originOf (base : String) : String :=
  match findSubIdx base "://" with
  | none => base
  | some i =>
    let hostLen := ((base.data.drop (i + 3)).takeWhile (· ≠ '/')).length
    ⟨base.data.take (i + 3 + hostLen)⟩

/-- Everything up to and including the last `'/'` of the URL. -/
def dirOf (base : String) : String :=
  match lastSlashIdx base.data with
  | some i => ⟨base.data.take (i + 1)⟩
  | none => base ++ "/"

/-- Modelled library function (`urllib.parse.urljoin`, also reachable as
`requests.compat.urljoin`), restricted to the shapes this repository
exercises: an absolute URL (one containing `"://"`) passes through
unchanged, a scheme-relative URL inherits the base scheme, a root-relative
path is resolved against the base origin, any other nonempty path is
resolved against the base directory, and the empty URL yields the base.
Query/fragment handling and dot-segment normalisation are not modelled. -/
def urljoin (base url : String) : String :=
  if url = "" then base
  else if containsSub url "://" then url
  else if pyStartswith url "//" then ⟨base.data.takeWhile (· ≠ ':')⟩ ++ ":" ++ url
  else if pyStartswith url "/" then originOf base ++ url
  else dirOf base ++ url

/-- The hardcoded base domain of `extract_product_hrefs.py` (line 28). -/
def DOMAIN : String := "https://cannabisrealmny.com/"

/-- Loop of `extract_hrefs_from_file` (lines 40-47): each anchor's href is
stripped; nonempty hrefs not seen before are recorded (dedup on the raw
href) and emitted resolved against `DOMAIN`. -/
def extract_hrefs_aux (seen : List String) : List String → List String
  | [] => []
  | h :: rest =>
    let href := pyStrip h
    if href ≠ "" ∧ href ∉ seen then
      urljoin DOMAIN href :: extract_hrefs_aux (href :: seen) rest
    else extract_hrefs_aux seen rest

/-- Embedding of `extract_hrefs_from_file` (lines 36-47), taking the list of
href attribute values of the anchors matched by the CSS selector, in
document order. -/
def extract_hrefs_from_file (anchorHrefs : List String) : List String :=
  extract_hrefs_aux [] anchorHrefs

/-- Spec-level first-seen deduplication, relative to an already-seen set. -/
def dedupFirstFrom (seen : List String) : List String → List String
  | [] => []
  | x :: xs =>
    if x ∈ seen then dedupFirstFrom seen xs
    else x :: dedupFirstFrom (x :: seen) xs

/-- Spec-level first-seen deduplication of a list. -/
def dedupFirst (l : List String) : List String := dedupFirstFrom [] l

/-- The `grand_total` counter of `main` (lines 57-68): missing files
(`none`) are skipped with a warning; present files contribute the length of
their extracted href list. -/
def grand_total (cats : List (Option (List String))) : Nat :=
  (cats.filterMap id).foldl
    (fun acc anchors => acc + (extract_hrefs_from_file anchors).length) 0

/-- The `len(combined_seen)` summary of `main` (lines 58, 77, 81): the
number of distinct resolved hrefs across all processed files. -/
def combined_unique (cats : List (Option (List String))) : Nat :=
  (((cats.filterMap id).map extract_hrefs_from_file).flatten).dedup.length

/-- Boolean disjointness of two href lists. -/
def disjointHrefs (l1 l2 : List String) : Bool :=
  l1.all (fun x => !(l2.contains x))

/-- Spec-side predicate for claim C6: no href occurs in the extracted output
of two different categories. -/
def no_cross_category_repeats (cats : List (Option (List String))) : Bool :=
  let lists := (cats.filterMap id).map extract_hrefs_from_file
  (List.range lists.length).all (fun i =>
    (List.range lists.length).all (fun j =>
      i = j || disjointHrefs (lists.getD i []) (lists.getD j [])))

/-!
COA link discovery (`find_coa_href`, scrape_coas_from_excel.py lines 143-165)
and its two regex patterns (lines 22-23).
-/

/-- An anchor tag as seen by the downloader: `text` models BeautifulSoup's
`tag.string` (`none` when the anchor has no single string child), `href`
models the href attribute (`none` when absent). -/
structure CoaAnchor where
  text : Option String
  href : Option String
deriving DecidableEq

/-- Word character of the regex `\b` boundary (ASCII `\w`). -/
def wordChar (c : Char) : Bool := c.isAlphanum || c = '_'

/-- Ends `e` of a match of `(?:\bcoa\b|certificate|analysis)` starting at
index `i` of the (already lowercased) character list `l`. -/
def coaishAltEnds (l : List Char) (i : Nat) : List Nat :=
  (if prefixAt l "coa".data i
      && (i = 0 || !wordChar (l.getD (i - 1) ' '))
      && (i + 3 = l.length || !wordChar (l.getD (i + 3) ' '))
   then [i + 3] else [])
  ++ (if prefixAt l "certificate".data i then [i + 11] else [])
  ++ (if prefixAt l "analysis".data i then [i + 8] else [])

/-- Does `\.pdf(?:$|\?)` match at index `j` of `l`? -/
def pdfTailAt (l : List Char) (j : Nat) : Bool :=
  prefixAt l ".pdf".data j && (j + 4 = l.length || l.getD (j + 4) ' ' = '?')

/-- All characters of `l` with indices in `[e, j)` are non-newline (the
regex `.` does not match `\n` without `re.S`). -/
def gapNoNewline (l : List Char) (e j : Nat) : Bool :=
  (List.range' e (j - e)).all (fun k => l.getD k ' ' ≠ '\n')

/-- Model of `ALLEAVES_PDF_PAT.search(href)` (line 22): the pattern
`alleaves\.com/.+\.pdf(?:$|\?)` with `re.I` matches somewhere in `href`. -/
def alleavesMatch (href : String) : Bool :=
  let l := (pyLower href).data
  (List.range (l.length + 1)).any (fun i =>
    prefixAt l "alleaves.com/".data i &&
    (List.range (l.length + 1)).any (fun j =>
      i + 13 < j && pdfTailAt l j && gapNoNewline l (i + 13) j))

/-- Model of `COAISH_PDF_PAT.search(s)` (line 23): the pattern
`(?:\bcoa\b|certificate|analysis).+\.pdf(?:$|\?)` with `re.I` matches
somewhere in `s` (the call site already lowercases `s`). -/
def coaishMatch (s : String) : Bool :=
  let l := (pyLower s).data
  (List.range (l.length + 1)).any (fun i =>
    (coaishAltEnds l i).any (fun e =>
      (List.range (l.length + 1)).any (fun j =>
        e < j && pdfTailAt l j && gapNoNewline l e j)))

/-- Tier (a) matcher (line 148): the lambda
`lambda s: s and "coa" in s.lower()` applied to the anchor's string. -/
def tierAPred (a : CoaAnchor) : Bool :=
  match a.text with
  | some s => containsSub (pyLower s) "coa"
  | none => false

/-- Lines 149-151 and 155-157 and 161-163: a stripped href is returned as-is
when it starts with `"http"`, otherwise resolved against the page URL. -/
def resolveHref (base_url href : String) : String :=
  if pyStartswith href "http" then href else urljoin base_url href

/-- Tiers (b) and (c) of `find_coa_href` (lines 153-163): first any
Alleaves PDF href, then any COA-ish `.pdf` href, each iterating over the
anchors that carry an href attribute, in document order. -/
def findCoaTiersBC (anchors : List CoaAnchor) (base_url : String) : Option String :=
  let hrefs := anchors.filterMap (fun a => a.href.map pyStrip)
  match hrefs.find? alleavesMatch with
  | some h => some (resolveHref base_url h)
  | none =>
    match hrefs.find? (fun h =>
        pyEndswith (pyLower h) ".pdf" && coaishMatch (pyLower h)) with
    | some h => some (resolveHref base_url h)
    | none => none

/-- Embedding of `find_coa_href` (lines 143-165).  Tier (a) looks for the
first anchor whose string contains `"coa"` case-insensitively; if that
anchor carries a non-empty href it is returned (stripped, resolved),
otherwise — exactly as in the source, where `a.get("href")` is falsy —
control falls through to tiers (b) and (c). -/
def find_coa_href (anchors : List CoaAnchor) (base_url : String) : Option String :=
  match anchors.find? tierAPred with
  | some a =>
    match a.href with
    | some h =>
      if h ≠ "" then some (resolveHref base_url (pyStrip h))
      else findCoaTiersBC anchors base_url
    | none => findCoaTiersBC anchors base_url
  | none => findCoaTiersBC anchors base_url

/-!
Effects extraction (`clean_effect_token` lines 115-118, `parse_effects`
lines 120-141, `EFFECT_NAME_RE` lines 25-28).
-/

/-- The alternatives of `EFFECT_NAME_RE`, in pattern order. -/
def EFFECT_NAMES : List String :=
  ["Creative", "Energized", "Happy", "Calm", "Sleepy", "Hungry", "Focused",
   "Relaxed", "Talkative", "Uplifted", "Giggly", "Euphoric", "Sociable",
   "Aroused", "Tingly"]

/-- Embedding of `clean_effect_token` (lines 115-118):
`EFFECT_NAME_RE.search(txt)` finds the leftmost case-insensitive occurrence
of an effect name (alternatives tried in pattern order at each position) and
`m.group(1).capitalize()` yields its canonical capitalisation, which is
exactly the name as listed in `EFFECT_NAMES`. -/
def clean_effect_token (txt : String) : Option String :=
  let l := (pyLower txt).data
  (List.range (l.length + 1)).findSome? (fun i =>
    EFFECT_NAMES.findSome? (fun name =>
      if prefixAt l (pyLower name).data i then some name else none))

/-- First-seen dedup loop of `parse_effects` (lines 136-140). -/
def dedupEffects (seen : List String) : List String → List String
  | [] => []
  | e :: rest =>
    if e ∈ seen then dedupEffects seen rest
    else e :: dedupEffects (e :: seen) rest

/-- An `<h2>` heading of the page together with its enclosing section:
`headingText` models `h2.get_text(strip=True)`; `sectionAnchorTexts` models
the `get_text(" ", strip=True)` of each anchor of the section, in document
order, and is `none` when the h2 has neither a `section` parent nor any
parent (in which case the source breaks out of the loop). -/
structure H2Sec where
  headingText : String
  sectionAnchorTexts : Option (List String)
deriving DecidableEq

/-- Embedding of `parse_effects` (lines 120-141): scan h2 headings in order,
stop at the first whose text contains `"effects"` case-insensitively,
collect the effect labels of the anchors of its section, and deduplicate
preserving encounter order. -/
def parse_effects (h2s : List H2Sec) : List String :=
  let effects :=
    match h2s.find? (fun h => containsSub (pyLower h.headingText) "effects") with
    | none => []
    | some sec =>
      match sec.sectionAnchorTexts with
      | none => []
      | some txts => txts.filterMap clean_effect_token
  dedupEffects [] effects

/-!
Filename sanitisation (`SAFE_FN` line 30, `safe_filename` lines 167-170).
-/

/-- Characters kept by `SAFE_FN = re.compile(r"[^A-Za-z0-9._-]+")`. -/
def isSafeChar (c : Char) : Bool :=
  c.isAlpha || c.isDigit || c = '.' || c = '_' || c = '-'

/-- `SAFE_FN.sub("_", s)`: each maximal run of unsafe characters collapses
to a single underscore.  The flag records whether the previous character was
part of an unsafe run. -/
def safeSubAux : Bool → List Char → List Char
  | _, [] => []
  | prevUnsafe, c :: cs =>
    if isSafeChar c then c :: safeSubAux false cs
    else if prevUnsafe then safeSubAux true cs
    else '_' :: safeSubAux true cs

/-- Embedding of `safe_filename` (lines 167-170): join the nonempty parts
with underscores, strip underscores, collapse unsafe character runs to
underscores, strip again, fall back to `"coa"`, cap at 140 characters and
append the suffix. -/
def safe_filename (parts : List String) (suffix : String) : String :=
  let base := pyStripChar '_' (joinSep "_" (parts.filter (fun p => p ≠ "")))
  let base := pyStripChar '_' ⟨safeSubAux false base.data⟩
  let base := if base = "" then "coa" else base
  strTake base 140 ++ suffix

/-!
Row loading (`load_rows`, lines 188-219).  The pandas column resolution is
an external collaborator; the embedding starts from the per-row cell values
`(type_cell, url_cell)` already stringified by `str(...)`, which is where
the filtering and deduplication of lines 203-219 operate.
-/

/-- Filtering loop of `load_rows` (lines 203-209): strip the URL cell, drop
rows whose URL does not start with `"http"`, and normalise the type cell. -/
def loadRowsFilter (raw : List (String × String)) : List (String × String) :=
  raw.filterMap (fun r =>
    let url := pyStrip r.2
    if pyStartswith url "http" then some (pyLower (pyStrip r.1), url) else none)

/-- Dedup loop of `load_rows` (lines 211-219): key is the URL with trailing
slashes removed and lowercased; the first occurrence wins. -/
def loadRowsDedup (seen : List String) : List (String × String) → List (String × String)
  | [] => []
  | r :: rest =>
    let key := pyLower (pyRstripChar '/' r.2)
    if key ∈ seen then loadRowsDedup seen rest
    else r :: loadRowsDedup (key :: seen) rest

/-- Embedding of `load_rows` (lines 188-219) from the stringified cells on:
rows whose URL value does not start with an HTTP scheme are silently
dropped, the rest are deduplicated by normalised URL keeping the first
occurrence. -/
def load_rows (raw : List (String × String)) : List (String × String) :=
  loadRowsDedup [] (loadRowsFilter raw)

/-!
HTTP fetching (`http_get`, lines 82-94) and the per-row worker
(`process_one`, lines 222-279).  The network and the filesystem are
modelled explicitly: a `World` maps URLs to responses and provides the
(sha256) content hash, and a filesystem `FS` maps paths to file contents.
-/

/-- A parsed view of a fetched product page: the anchors seen by
`find_coa_href` and the h2 sections seen by `parse_effects`. -/
structure Page where
  anchors : List CoaAnchor
  sections : List H2Sec
deriving DecidableEq

/-- A successful HTTP response: the `Content-Type` header (already defaulted
to `""` when absent, line 90), the parsed view of `r.text`, and the bytes of
`r.content`. -/
structure Resp where
  contentType : String
  page : Page
  content : List Nat
deriving DecidableEq

/-- Decidable equality of `Except` values, for evaluating the model on
concrete worlds. -/
instance exceptDecEq {ε α : Type} [DecidableEq ε] [DecidableEq α] :
    DecidableEq (Except ε α)
  | .error a, .error b =>
    if h : a = b then .isTrue (by rw [h]) else .isFalse (fun hh => by cases hh; exact h rfl)
  | .error _, .ok _ => .isFalse (fun hh => by cases hh)
  | .ok _, .error _ => .isFalse (fun hh => by cases hh)
  | .ok a, .ok b =>
    if h : a = b then .isTrue (by rw [h]) else .isFalse (fun hh => by cases hh; exact h rfl)

/-- Errors raised inside `http_get`: an HTTP-level error from
`requests.get`/`raise_for_status`, or the `ValueError` of the PDF content
check (line 93), carrying the lowercased content type. -/
inductive GetErr where
  | http (e : String)
  | notPdf (ctype : String)
deriving DecidableEq

/-- The `str(e)` of a `GetErr`, as written into the index `error` field. -/
def errStr : GetErr → String
  | .http e => e
  | .notPdf ct =>
    "Expected PDF-like content, got " ++ (if ct = "" then "unknown" else ct)

/-- The network and hashing environment of a run. -/
structure World where
  fetch : String → Except String Resp
  sha : List Nat → String

/-- The filesystem: a map from paths to file contents. -/
def FS : Type := String → Option (List Nat)

/-- Embedding of `http_get` (lines 82-94): HTTP errors propagate; with
`expect_pdf` set, a response whose lowercased content type contains neither
`"pdf"` nor `"octet-stream"` is rejected unless the lowercased URL ends in
`".pdf"`. -/
def http_get (w : World) (url : String) (expect_pdf : Bool) : Except GetErr Resp :=
  match w.fetch url with
  | .error e => .error (.http e)
  | .ok r =>
    if expect_pdf then
      let ctype := pyLower r.contentType
      if (!containsSub ctype "pdf" && !containsSub ctype "octet-stream")
          && !pyEndswith (pyLower url) ".pdf" then
        .error (.notPdf ctype)
      else .ok r
    else .ok r

/-- One row of the index CSV (fields of lines 223-236). -/
structure Rec where
  type : String
  product_href : String
  coa_url : String
  company : String
  product_name : String
  weight : String
  effects : String
  local_path : String
  sha256 : String
  size_kb : String
  status : String
  error : String
deriving DecidableEq

/-- The initial record of `process_one` (lines 223-236). -/
def initRec (ptype url : String) : Rec :=
  { type := ptype, product_href := url, coa_url := "", company := "",
    product_name := "", weight := "", effects := "[]", local_path := "",
    sha256 := "", size_kb := "", status := "", error := "" }

/-- Model of `json.dumps(effects, ensure_ascii=False)` for a list of
effect labels (which contain no characters needing JSON escapes). -/
def jsonStrList (l : List String) : String :=
  "[" ++ joinSep ", " (l.map (fun s => "\"" ++ s ++ "\"")) ++ "]"

/-- Lines 269-272: fill `local_path`, `sha256`, `size_kb` (hash and size of
the file at `pdf_path` when it exists, `""` otherwise) and set status `ok`. -/
def finishRec (w : World) (fs : FS) (r : Rec) (pdf_path : String) : Rec :=
  match fs pdf_path with
  | some content =>
    { r with
      local_path := pdf_path,
      sha256 := w.sha content,
      size_kb := toString (content.length / 1024),
      status := "ok" }
  | none =>
    { r with local_path := pdf_path, sha256 := "", size_kb := "", status := "ok" }

/-- The outcome of one `process_one` call: the records appended to the
index CSV, the `(url, expect_pdf)` pairs fetched over the network, and the
filesystem after the call. -/
structure RunOut where
  recs : List Rec
  fetches : List (String × Bool)
  fs : FS

/-- Embedding of `process_one` (lines 222-279).  Every exit path appends
exactly one record; the politeness sleep (line 267) and the progress prints
are not observable here and are omitted. -/
def process_one (w : World) (fs : FS) (url ptype pdf_dir : String) (force : Bool) :
    RunOut :=
  let rec0 := initRec ptype url
  match http_get w url false with
  | .error e =>
    ⟨[{ rec0 with status := "error", error := errStr e }], [(url, false)], fs⟩
  | .ok resp =>
    let cpw := parse_company_product_weight_from_url url
    let rec1 := { rec0 with
      company := cpw.1,
      product_name := cpw.2.1,
      weight := cpw.2.2,
      effects := jsonStrList (parse_effects resp.page.sections) }
    match find_coa_href resp.page.anchors url with
    | none => ⟨[{ rec1 with status := "no_coa" }], [(url, false)], fs⟩
    | some coa_url =>
      let rec2 := { rec1 with coa_url := coa_url }
      let pdf_path := pdf_dir ++ "/" ++ safe_filename [cpw.1, cpw.2.1, cpw.2.2] ".pdf"
      if (fs pdf_path).isSome && !force then
        ⟨[finishRec w fs rec2 pdf_path], [(url, false)], fs⟩
      else
        match http_get w coa_url true with
        | .error e =>
          ⟨[{ rec2 with status := "error", error := errStr e }],
           [(url, false), (coa_url, true)], fs⟩
        | .ok pdf =>
          let fs2 : FS := fun p => if p = pdf_path then some pdf.content else fs p
          ⟨[finishRec w fs2 rec2 pdf_path],
           [(url, false), (coa_url, true)], fs2⟩

/-- The target path of a row's PDF (lines 241 and 256-258): directory plus
the sanitised `{company}_{product}_{weight}.pdf` filename. -/
def pdfPathFor (pdf_dir url : String) : String :=
  let cpw := parse_company_product_weight_from_url url
  pdf_dir ++ "/" ++ safe_filename [cpw.1, cpw.2.1, cpw.2.2] ".pdf"

/-- The row loop of `main` (lines 292-294): process each loaded row in
order, threading the filesystem, and collect all appended index records. -/
def process_all (w : World) (fs : FS) (rows : List (String × String))
    (pdf_dir : String) (force : Bool) : List Rec × FS :=
  match rows with
  | [] => ([], fs)
  | (ptype, url) :: rest =>
    let out := process_one w fs url ptype pdf_dir force
    let next := process_all w out.fs rest pdf_dir force
    (out.recs ++ next.1, next.2)

/-- Claim-side predicate for C9: the content type "looks PDF-like" in the
sense of line 91 — it mentions `pdf` or `octet-stream` (case-insensitive). -/
def pdfLikeCtype (ct : String) : Bool :=
  containsSub (pyLower ct) "pdf" || containsSub (pyLower ct) "octet-stream"

/-- Claim-side pipeline for C5: the raw hrefs the extractor keeps — stripped,
nonempty, first occurrence only, in first-seen order. -/
def extractSpecRaw (anchorHrefs : List String) : List String :=
  dedupFirst ((anchorHrefs.map pyStrip).filter (fun s => s ≠ ""))

/-!
Theorems.
-/

/-- Helper: a string that starts with a nonempty prefix is not empty side:
the empty string starts with no nonempty string. -/
theorem pyStartswith_empty_left (p : String) (h : p ≠ "") :
    pyStartswith "" p = false := by
  cases p with
  | mk data =>
    cases data with
    | nil => exact absurd rfl h
    | cons c cs => rfl

/-- Helper: `weightOf` returns either the empty string or a weight token. -/
theorem weightOf_spec (s : String) :
    weightOf s = "" ∨ isWeightToken (weightOf s) = true := by
  unfold weightOf
  cases hf : (List.range (strLen s)).find? (fun i => isWeightToken (strDrop s i)) with
  | none => exact Or.inl rfl
  | some i => exact Or.inr (by simpa using List.find?_some hf)

/-- C4: `parse_company_product_weight_from_url` on
`"https://x/menu/acme/acme-blue-dream-3.5g"` returns
`("acme", "blue-dream", "3.5g")` — the first path segment after `/menu/` is
the company, the weight is the trailing numeric+unit suffix of the slug, and
the product name is the slug with the company prefix and weight suffix
stripped. -/
theorem c4_parse_url_example :
    parse_company_product_weight_from_url "https://x/menu/acme/acme-blue-dream-3.5g"
      = ("acme", "blue-dream", "3.5g") := by decide

/-- Helper: every row surviving the dedup loop of `load_rows` was already in
its input. -/
theorem loadRowsDedup_sublist_mem (l : List (String × String)) :
    ∀ (seen : List String) (x : String × String), x ∈ loadRowsDedup seen l → x ∈ l := by
  induction l with
  | nil => intro seen x hx; simp [loadRowsDedup] at hx
  | cons y ys ih =>
    intro seen x hx
    simp only [loadRowsDedup] at hx
    split at hx
    · exact List.mem_cons_of_mem _ (ih seen x hx)
    · rcases List.mem_cons.mp hx with h | h
      · exact h ▸ List.mem_cons_self _ _
      · exact List.mem_cons_of_mem _ (ih _ x h)

/-- C7: every row returned by `load_rows` has a URL starting with `"http"`;
hence a row whose (stripped) URL value does not start with an HTTP scheme is
excluded from the returned row set, and `load_rows` is a total function, so
the exclusion raises no error. -/
theorem c7_load_rows_http_only (raw : List (String × String)) (r : String × String)
    (hr : r ∈ load_rows raw) : pyStartswith r.2 "http" = true := by
  have hmem : r ∈ loadRowsFilter raw := loadRowsDedup_sublist_mem _ [] r hr
  rw [loadRowsFilter] at hmem
  rcases List.mem_filterMap.mp hmem with ⟨x, hxmem, hx⟩
  by_cases hs : pyStartswith (pyStrip x.2) "http" = true
  · rw [if_pos hs] at hx
    cases hx
    exact hs
  · rw [if_neg hs] at hx
    cases hx

/-- Witness for C7: on a concrete input containing one schemeless row and
one HTTP row, the surviving row's URL starts with `"http"` (and indeed the
schemeless row is gone). -/
theorem c7_load_rows_http_only_witness :
    pyStartswith (("edible", "https://a/b") : String × String).2 "http" = true :=
  c7_load_rows_http_only [("Flower", "notaurl"), ("Edible", " https://a/b ")]
    ("edible", "https://a/b") (by decide)

/-- Helper for C10: when the part after `/menu/` has no second `/`-segment,
both the product name and the weight come out empty. -/
theorem parse_pw_empty (url : String)
    (hslug : (pySplitChar (splitMenuTail url) '/').getD 1 "" = "") :
    (parse_company_product_weight_from_url url).2.1 = ""
    ∧ (parse_company_product_weight_from_url url).2.2 = "" := by
  have h0 : pyStrip "" = "" := rfl
  have hw0 : weightOf "" = "" := rfl
  have hcond : ¬(pyStrip ((pySplitChar (splitMenuTail url) '/').getD 0 "") ≠ ""
      ∧ pyStartswith "" (pyStrip ((pySplitChar (splitMenuTail url) '/').getD 0 "")) = true) := by
    rintro ⟨h1, h2⟩
    rw [pyStartswith_empty_left _ h1] at h2
    exact absurd h2 (by decide)
  simp only [parse_company_product_weight_from_url]
  rw [hslug, h0, hw0]
  rw [if_neg (by decide : ¬(("" : String) ≠ ""))]
  rw [if_neg hcond]
  exact ⟨rfl, rfl⟩

/-- C10: `parse_company_product_weight_from_url` is total — on every input
string it returns a triple of strings (guarded indexing, no exceptions); a
nonempty weight component is always a genuine weight token, and when the
part after `/menu/` has no second path segment (in particular for URLs with
no `/menu/` and no second segment) the product name and weight components
are the empty string. -/
theorem c10_parse_url_total (url : String) :
    ∃ c p w, parse_company_product_weight_from_url url = (c, p, w)
      ∧ (w ≠ "" → isWeightToken w = true)
      ∧ ((pySplitChar (splitMenuTail url) '/').length ≤ 1 → p = "" ∧ w = "") := by
  obtain ⟨c, pw, heq⟩ : ∃ c pw, parse_company_product_weight_from_url url = (c, pw) :=
    ⟨_, _, rfl⟩
  obtain ⟨p, w, hpw⟩ : ∃ p w, pw = (p, w) := ⟨_, _, rfl⟩
  subst hpw
  have hw2 : w = weightOf (pyStrip ((pySplitChar (splitMenuTail url) '/').getD 1 "")) := by
    have h1 := congrArg (fun t => t.2.2) heq
    exact h1.symm
  refine ⟨c, p, w, heq, ?_, ?_⟩
  · intro hw
    rw [hw2]
    rcases weightOf_spec (pyStrip ((pySplitChar (splitMenuTail url) '/').getD 1 "")) with h | h
    · rw [hw2] at hw
      exact absurd h hw
    · exact h
  · intro hlen
    have hp := parse_pw_empty url (List.getD_eq_default _ _ hlen)
    rw [heq] at hp
    exact hp

/-- Witness for C10: on the degenerate input `"plain"` (no `/menu/`, no
second segment) the product name and weight are returned empty. -/
theorem c10_parse_url_total_witness :
    (parse_company_product_weight_from_url "plain").2.1 = ""
    ∧ (parse_company_product_weight_from_url "plain").2.2 = "" := by
  obtain ⟨c, p, w, heq, -, himp⟩ := c10_parse_url_total "plain"
  have hpw := himp (by decide)
  rw [heq]
  exact hpw

/-- C8: a page none of whose h2 headings contains `"effects"`
(case-insensitively) yields the empty effects list; `parse_effects` is a
total function, so no error is raised. -/
theorem c8_parse_effects_no_heading (h2s : List H2Sec)
    (h : ∀ sec ∈ h2s, containsSub (pyLower sec.headingText) "effects" = false) :
    parse_effects h2s = [] := by
  have hfind : h2s.find? (fun s => containsSub (pyLower s.headingText) "effects") = none := by
    rw [List.find?_eq_none]
    intro sec hsec
    rw [h sec hsec]
    exact Bool.false_ne_true
  simp [parse_effects, hfind, dedupEffects]

/-- Witness for C8: a page with a non-effects heading (whose section even
contains an effect-looking anchor) yields the empty list. -/
theorem c8_parse_effects_no_heading_witness :
    parse_effects [⟨"Description", some ["Happy"]⟩] = [] :=
  c8_parse_effects_no_heading [⟨"Description", some ["Happy"]⟩] (by decide)

/-- C1 (amended): whenever the first anchor whose string contains `"coa"`
case-insensitively carries a nonempty href, `find_coa_href` returns that
href (stripped, resolved against the page URL when relative) — tier (a)
takes precedence over tiers (b) and (c) whatever the other anchors contain.
(The claim as stated fails when that first matching anchor has no href: see
the counterexample.) -/
theorem c1_find_coa_href_tier_a (anchors : List CoaAnchor) (base_url : String)
    (a : CoaAnchor) (h : String)
    (hfind : anchors.find? tierAPred = some a) (hhref : a.href = some h)
    (hne : h ≠ "") :
    find_coa_href anchors base_url = some (resolveHref base_url (pyStrip h)) := by
  unfold find_coa_href
  rw [hfind]
  dsimp only
  rw [hhref]
  dsimp only
  rw [if_pos hne]

/-- Counterexample to C1 as stated: this page contains an anchor with an
href whose visible text contains `"coa"` (the second one), yet
`find_coa_href` returns `none`, because tier (a) finds the href-less first
anchor, yields nothing, and tiers (b) and (c) do not match `"link.html"`. -/
theorem c1_find_coa_href_counterexample :
    tierAPred ⟨some "Download COA", some "link.html"⟩ = true
    ∧ (⟨some "Download COA", some "link.html"⟩ : CoaAnchor)
        ∈ [(⟨some "coa", none⟩ : CoaAnchor), ⟨some "Download COA", some "link.html"⟩]
    ∧ find_coa_href [⟨some "coa", none⟩, ⟨some "Download COA", some "link.html"⟩]
        "https://x/p" = none := by decide

/-- Witness for C1: the case-variant anchor text `"CoA "` is discovered by
tier (a) and its absolute href is returned unchanged. -/
theorem c1_find_coa_href_tier_a_witness :
    find_coa_href [⟨some "CoA ", some "https://lab.example/c.pdf"⟩] "https://x/p"
      = some "https://lab.example/c.pdf" := by
  rw [c1_find_coa_href_tier_a [⟨some "CoA ", some "https://lab.example/c.pdf"⟩]
    "https://x/p" ⟨some "CoA ", some "https://lab.example/c.pdf"⟩
    "https://lab.example/c.pdf" (by decide) rfl (by decide)]
  decide

/-- C9: with `expect_pdf` set, `http_get` raises the PDF-content-check
error exactly when the fetch succeeded, the content type mentions neither
`pdf` nor `octet-stream`, and the lowercased URL does not end in `".pdf"`;
in particular any content type whatsoever is tolerated when the URL ends in
`".pdf"`. -/
theorem c9_http_get_pdf_check (w : World) (url : String) :
    ((∃ ct, http_get w url true = .error (.notPdf ct)) ↔
      (∃ r, w.fetch url = .ok r ∧ pdfLikeCtype r.contentType = false
        ∧ pyEndswith (pyLower url) ".pdf" = false))
    ∧ (pyEndswith (pyLower url) ".pdf" = true →
        ∀ r, w.fetch url = .ok r → http_get w url true = .ok r) := by
  cases hf : w.fetch url with
  | error e => simp [http_get, hf]
  | ok r =>
    cases hpdf : containsSub (pyLower r.contentType) "pdf"
      <;> cases hoct : containsSub (pyLower r.contentType) "octet-stream"
      <;> cases hend : pyEndswith (pyLower url) ".pdf"
      <;> simp [http_get, hf, hpdf, hoct, hend, pdfLikeCtype]

/-- Witness for C9: a response labelled `text/plain` is tolerated because
the URL ends in `".PDF"` (case-insensitive suffix check). -/
theorem c9_http_get_pdf_check_witness :
    http_get ⟨fun _ => .ok ⟨"text/plain", ⟨[], []⟩, []⟩, fun _ => "h0"⟩
      "https://x/a.PDF" true = .ok ⟨"text/plain", ⟨[], []⟩, []⟩ :=
  (c9_http_get_pdf_check
    ⟨fun _ => .ok ⟨"text/plain", ⟨[], []⟩, []⟩, fun _ => "h0"⟩
    "https://x/a.PDF").2 (by decide) ⟨"text/plain", ⟨[], []⟩, []⟩ rfl

/-- Helper: the extractor loop keeps exactly the first-seen nonempty
stripped hrefs and emits them resolved against `DOMAIN`, in order. -/
theorem extract_hrefs_aux_eq (l : List String) :
    ∀ seen : List String,
      extract_hrefs_aux seen l
        = (dedupFirstFrom seen ((l.map pyStrip).filter (fun s => s ≠ ""))).map
            (urljoin DOMAIN) := by
  induction l with
  | nil => intro seen; rfl
  | cons h rest ih =>
    intro seen
    by_cases h0 : pyStrip h = ""
    · simp [extract_hrefs_aux, h0, ih seen]
    · by_cases hseen : pyStrip h ∈ seen
      · simp [extract_hrefs_aux, dedupFirstFrom, h0, hseen, ih seen]
      · simp [extract_hrefs_aux, dedupFirstFrom, h0, hseen, ih]

/-- Helper: first-seen dedup never emits an element of the seen set. -/
theorem dedupFirstFrom_not_mem_seen (l : List String) :
    ∀ (seen : List String) (x : String), x ∈ dedupFirstFrom seen l → x ∉ seen := by
  induction l with
  | nil => intro seen x hx; simp [dedupFirstFrom] at hx
  | cons y ys ih =>
    intro seen x hx
    by_cases hy : y ∈ seen
    · simp only [dedupFirstFrom, if_pos hy] at hx
      exact ih seen x hx
    · simp only [dedupFirstFrom, if_neg hy] at hx
      rcases List.mem_cons.mp hx with h | h
      · exact h ▸ hy
      · have hns := ih _ x h
        exact fun hxs => hns (List.mem_cons_of_mem _ hxs)

/-- Helper: first-seen dedup emits no duplicates. -/
theorem dedupFirstFrom_nodup (l : List String) :
    ∀ seen : List String, (dedupFirstFrom seen l).Nodup := by
  induction l with
  | nil => intro seen; simp [dedupFirstFrom]
  | cons y ys ih =>
    intro seen
    by_cases hy : y ∈ seen
    · simp only [dedupFirstFrom, if_pos hy]
      exact ih seen
    · simp only [dedupFirstFrom, if_neg hy]
      rw [List.nodup_cons]
      refine ⟨?_, ih _⟩
      intro hmem
      exact dedupFirstFrom_not_mem_seen ys _ y hmem (List.mem_cons_self _ _)

/-- C5 (amended): `extract_hrefs_from_file` returns exactly the first-seen
deduplication of the nonempty stripped raw hrefs, resolved against the
domain and in first-seen order; the raw kept hrefs are pairwise distinct,
and the returned URL list is duplicate-free whenever domain resolution is
injective on those raw hrefs.  (As stated — duplicate-freedom of the
returned URLs unconditionally — the claim fails, because deduplication
happens before resolution: see the counterexample.) -/
theorem c5_extract_hrefs (anchorHrefs : List String) :
    extract_hrefs_from_file anchorHrefs
        = (extractSpecRaw anchorHrefs).map (urljoin DOMAIN)
    ∧ (extractSpecRaw anchorHrefs).Nodup
    ∧ ((∀ x ∈ extractSpecRaw anchorHrefs, ∀ y ∈ extractSpecRaw anchorHrefs,
          urljoin DOMAIN x = urljoin DOMAIN y → x = y) →
        (extract_hrefs_from_file anchorHrefs).Nodup) := by
  have heq := extract_hrefs_aux_eq anchorHrefs []
  refine ⟨heq, dedupFirstFrom_nodup _ [], ?_⟩
  intro hinj
  have hnd : ((dedupFirstFrom []
      ((anchorHrefs.map pyStrip).filter (fun s => s ≠ ""))).map (urljoin DOMAIN)).Nodup :=
    List.Nodup.map_on hinj (dedupFirstFrom_nodup _ [])
  rw [extract_hrefs_from_file, heq]
  exact hnd

/-- Counterexample to C5 as stated: an absolute href and its root-relative
twin are distinct raw hrefs (so both survive the dedup), but resolve to the
same URL, so the returned list contains a duplicate. -/
theorem c5_extract_hrefs_counterexample :
    ¬ (extract_hrefs_from_file
        ["https://cannabisrealmny.com/a", "/a"]).Nodup := by decide

/-- Witness for C5: on a file whose (deduplicated) hrefs resolve
injectively, the returned list is duplicate-free. -/
theorem c5_extract_hrefs_witness :
    (extract_hrefs_from_file ["/menu/x", "/menu/y", "/menu/x"]).Nodup :=
  (c5_extract_hrefs ["/menu/x", "/menu/y", "/menu/x"]).2.2 (by decide)

/-- Helper: `grand_total` is the length of the concatenation of the
per-category extracted lists. -/
theorem grand_total_eq_flatten_length (cats : List (Option (List String))) :
    grand_total cats
      = (((cats.filterMap id).map extract_hrefs_from_file).flatten).length := by
  unfold grand_total
  suffices h : ∀ (lst : List (List String)) (acc : Nat),
      lst.foldl (fun acc anchors => acc + (extract_hrefs_from_file anchors).length) acc
        = acc + ((lst.map extract_hrefs_from_file).flatten).length by
    simpa using h (cats.filterMap id) 0
  intro lst
  induction lst with
  | nil => intro acc; simp
  | cons x xs ih =>
    intro acc
    simp [ih, Nat.add_assoc]

/-- C6 (amended): the combined-unique count is at most the sum of the
per-category counts, with equality exactly when no href occurs twice in the
whole run — that is, the concatenation of the per-category extracted lists
is duplicate-free.  (The claim's "no href repeats across categories" is not
sufficient for equality, because one category's list can itself contain a
post-resolution duplicate: see the counterexample.) -/
theorem c6_combined_unique_vs_grand_total (cats : List (Option (List String))) :
    combined_unique cats ≤ grand_total cats
    ∧ (combined_unique cats = grand_total cats ↔
        (((cats.filterMap id).map extract_hrefs_from_file).flatten).Nodup) := by
  have hgt := grand_total_eq_flatten_length cats
  have hcu : combined_unique cats
      = (((cats.filterMap id).map extract_hrefs_from_file).flatten).dedup.length := rfl
  constructor
  · rw [hcu, hgt]
    exact (List.dedup_sublist _).length_le
  · rw [hcu, hgt]
    constructor
    · intro h
      have hde := (List.dedup_sublist
        (((cats.filterMap id).map extract_hrefs_from_file).flatten)).eq_of_length h
      rw [← hde]
      exact List.nodup_dedup _
    · intro h
      rw [List.dedup_eq_self.mpr h]

/-- Counterexample to C6 as stated: a single category containing an
absolute href and its root-relative twin has no cross-category repetition,
yet the combined-unique count (1) is strictly below the per-category sum
(2), so "equality iff no cross-category repeats" fails. -/
theorem c6_combined_unique_counterexample :
    no_cross_category_repeats [some ["https://cannabisrealmny.com/a", "/a"]] = true
    ∧ combined_unique [some ["https://cannabisrealmny.com/a", "/a"]] = 1
    ∧ grand_total [some ["https://cannabisrealmny.com/a", "/a"]] = 2 := by decide

/-- Witness for C6: two disjoint duplicate-free categories reach equality. -/
theorem c6_combined_unique_witness :
    combined_unique [some ["/a"], none, some ["/b"]]
      = grand_total [some ["/a"], none, some ["/b"]] :=
  (c6_combined_unique_vs_grand_total [some ["/a"], none, some ["/b"]]).2.mpr (by decide)

/-- Helper: every exit path of `process_one` appends exactly one record. -/
theorem process_one_recs_length (w : World) (fs : FS) (url ptype pdf_dir : String)
    (force : Bool) : (process_one w fs url ptype pdf_dir force).recs.length = 1 := by
  unfold process_one
  dsimp only
  split
  · rfl
  · split
    · rfl
    · split
      · rfl
      · split <;> rfl

/-- C2: the row loop appends exactly one index record per processed row,
whatever each row's outcome (ok, no_coa or error): records out equal rows
in. -/
theorem c2_one_record_per_row (w : World) (fs : FS) (rows : List (String × String))
    (pdf_dir : String) (force : Bool) :
    (process_all w fs rows pdf_dir force).1.length = rows.length := by
  induction rows generalizing fs with
  | nil => rfl
  | cons r rest ih =>
    cases r with
    | mk ptype url =>
      simp only [process_all, List.length_append, List.length_cons]
      rw [process_one_recs_length, ih]
      omega

/-- Helper: `finishRec` on an existing file records its hash and size. -/
theorem finishRec_some (w : World) (fs : FS) (r : Rec) (path : String)
    (content : List Nat) (h : fs path = some content) :
    finishRec w fs r path
      = { r with local_path := path, sha256 := w.sha content,
                 size_kb := toString (content.length / 1024), status := "ok" } := by
  unfold finishRec
  rw [h]

/-- C3: when the COA link is discovered and the target PDF already exists
and force is unset, `process_one` performs no network fetch of the COA URL
(the only fetch is the product page), leaves the filesystem unchanged, and
appends a single record with status `ok` carrying the hash and size of the
existing file — hence the same hash as the run that wrote it. -/
theorem c3_skip_existing (w : World) (fs : FS) (url ptype pdf_dir : String)
    (resp : Resp) (coa_url : String) (content : List Nat)
    (hpage : w.fetch url = .ok resp)
    (hcoa : find_coa_href resp.page.anchors url = some coa_url)
    (hfs : fs (pdfPathFor pdf_dir url) = some content) :
    (process_one w fs url ptype pdf_dir false).fetches = [(url, false)]
    ∧ (process_one w fs url ptype pdf_dir false).fs = fs
    ∧ ∃ r, (process_one w fs url ptype pdf_dir false).recs = [r]
        ∧ r.status = "ok"
        ∧ r.coa_url = coa_url
        ∧ r.local_path = pdfPathFor pdf_dir url
        ∧ r.sha256 = w.sha content
        ∧ r.size_kb = toString (content.length / 1024) := by
  have hget : http_get w url false = .ok resp := by
    rw [http_get, hpage]
    rfl
  have hpath : pdf_dir ++ "/" ++ safe_filename
      [(parse_company_product_weight_from_url url).1,
       (parse_company_product_weight_from_url url).2.1,
       (parse_company_product_weight_from_url url).2.2] ".pdf"
      = pdfPathFor pdf_dir url := rfl
  have hcond : ((fs (pdfPathFor pdf_dir url)).isSome && !false) = true := by
    rw [hfs]
    rfl
  unfold process_one
  rw [hget]
  dsimp only
  rw [hcoa]
  dsimp only
  rw [hpath, if_pos hcond]
  refine ⟨rfl, rfl, _, rfl, ?_⟩
  rw [finishRec_some w fs _ _ _ hfs]
  exact ⟨rfl, rfl, rfl, rfl, rfl⟩

/-- Witness for C3: a concrete world in which the product page links a COA
and the target `out/acme_foo_1g.pdf` already holds bytes `[1, 2, 3]`: the
run fetches only the page, keeps the filesystem, and records `ok` with the
existing file's hash. -/
theorem c3_skip_existing_witness :
    (process_one
        ⟨fun u => if u = "https://x/menu/acme/acme-foo-1g"
            then .ok ⟨"text/html",
              ⟨[⟨some "Download COA", some "https://lab.example/c.pdf"⟩], []⟩, []⟩
            else .error "connection refused",
          fun c => if c = [1, 2, 3] then "HASH1" else "HASH0"⟩
        (fun p => if p = "out/acme_foo_1g.pdf" then some [1, 2, 3] else none)
        "https://x/menu/acme/acme-foo-1g" "flower" "out" false).fetches
      = [("https://x/menu/acme/acme-foo-1g", false)]
    ∧ (process_one
        ⟨fun u => if u = "https://x/menu/acme/acme-foo-1g"
            then .ok ⟨"text/html",
              ⟨[⟨some "Download COA", some "https://lab.example/c.pdf"⟩], []⟩, []⟩
            else .error "connection refused",
          fun c => if c = [1, 2, 3] then "HASH1" else "HASH0"⟩
        (fun p => if p = "out/acme_foo_1g.pdf" then some [1, 2, 3] else none)
        "https://x/menu/acme/acme-foo-1g" "flower" "out" false).fs
      = (fun p => if p = "out/acme_foo_1g.pdf" then some [1, 2, 3] else none)
    ∧ ∃ r, (process_one
        ⟨fun u => if u = "https://x/menu/acme/acme-foo-1g"
            then .ok ⟨"text/html",
              ⟨[⟨some "Download COA", some "https://lab.example/c.pdf"⟩], []⟩, []⟩
            else .error "connection refused",
          fun c => if c = [1, 2, 3] then "HASH1" else "HASH0"⟩
        (fun p => if p = "out/acme_foo_1g.pdf" then some [1, 2, 3] else none)
        "https://x/menu/acme/acme-foo-1g" "flower" "out" false).recs = [r]
        ∧ r.status = "ok"
        ∧ r.coa_url = "https://lab.example/c.pdf"
        ∧ r.local_path = "out/acme_foo_1g.pdf"
        ∧ r.sha256 = "HASH1"
        ∧ r.size_kb = "0" :=
  c3_skip_existing
    ⟨fun u => if u = "https://x/menu/acme/acme-foo-1g"
        then .ok ⟨"text/html",
          ⟨[⟨some "Download COA", some "https://lab.example/c.pdf"⟩], []⟩, []⟩
        else .error "connection refused",
      fun c => if c = [1, 2, 3] then "HASH1" else "HASH0"⟩
    (fun p => if p = "out/acme_foo_1g.pdf" then some [1, 2, 3] else none)
    "https://x/menu/acme/acme-foo-1g" "flower" "out"
    ⟨"text/html", ⟨[⟨some "Download COA", some "https://lab.example/c.pdf"⟩], []⟩, []⟩
    "https://lab.example/c.pdf" [1, 2, 3] (by decide) (by decide) (by decide)
